import Mathlib

/-!
# Verification of the auto_bot listing pipeline

Shallow embedding of the `auto_bot` repository: the SQLite-backed
repository (`src/database/repository.py`, `src/database/models.py`),
the price and urgency analyzers (`src/analyzers/price_analyzer.py`,
`src/analyzers/urgency_detector.py`), the proxy pool
(`src/proxy_manager.py`) and the per-listing orchestration of
`AutoDealBot.scrape_and_notify` (`src/main.py`).

Modelling conventions:
* Python floats become `ℚ`; timestamps become `ℤ` (seconds since an
  arbitrary epoch, so `timedelta(hours=h)` is `h * 3600`).
* `Optional[T]` becomes `Option T`; Python truthiness of an optional
  float (`if x:`) is `x = some v ∧ v ≠ 0`.
* The database is explicit state: a `DB` record threaded through the
  repository operations.  Rows are appended in commit order, so a list
  ordered by ascending `recorded_at` is the append order and
  `ORDER BY recorded_at DESC` is its reverse.
* External effects (HTTP fetches, regex keyword matching, Telegram
  sends, `random.choice`) enter as explicit parameters of the
  functions that consume their results.
-/

namespace AutoBot

/-- A row of the `listings` table (`src/database/models.py`, `Listing`). -/
structure ListingRow where
  id : ℕ
  source : String
  listing_id : String
  url : String
  make : String
  model : Option String
  year : Option ℤ
  mileage : Option ℤ
  price_usd : ℚ
  price_original : Option ℚ
  currency_original : Option String
  title : Option String
  description : Option String
  location : Option String
  image_url : Option String
  is_urgent : Bool
  customs_cleared : Option Bool
  first_seen : ℤ
  last_seen : ℤ
deriving DecidableEq, Repr

/-- The dict produced by `CarListing.to_dict` (`src/scrapers/base.py`):
the payload handed to `Repository.upsert_listing`.  Every key is always
present; optional fields carry `None` as `none`. -/
structure ListingData where
  source : String
  listing_id : String
  url : String
  make : String
  model : Option String
  year : Option ℤ
  mileage : Option ℤ
  price_usd : ℚ
  price_original : Option ℚ
  currency_original : Option String
  title : Option String
  description : Option String
  location : Option String
  image_url : Option String
  is_urgent : Bool
  customs_cleared : Option Bool
deriving DecidableEq, Repr

/-- A row of the `price_history` table (`PriceHistory`). -/
structure PriceHistoryRow where
  listing_id : ℕ
  price_usd : ℚ
  price_original : Option ℚ
  currency_original : Option String
  recorded_at : ℤ
deriving DecidableEq, Repr

/-- A row of the `sent_notifications` table (`SentNotification`). -/
structure SentNotificationRow where
  listing_id : ℕ
  sent_at : ℤ
  reason : String
  message_id : Option ℤ
deriving DecidableEq, Repr

/-- The database state: the three tables plus the autoincrement counter
for `listings.id`.  `history` and `notes` are kept in append (commit)
order. -/
structure DB where
  listings : List ListingRow
  history : List PriceHistoryRow
  notes : List SentNotificationRow
  nextId : ℕ
deriving DecidableEq, Repr

/-- The `WHERE source = ... AND listing_id = ...` predicate used by
`upsert_listing` and `get_listing`. -/
def keyMatch (d : ListingData) (l : ListingRow) : Bool :=
  l.source == d.source && l.listing_id == d.listing_id

/-- Models `setattr(existing, key, value)` guarded by `value is not None`:
an incoming `None` leaves the stored value untouched. -/
def updOpt {α : Type} (incoming stored : Option α) : Option α :=
  match incoming with
  | some v => some v
  | none => stored

/-- The field-update loop of the `existing` branch of
`Repository.upsert_listing` (repository.py lines 56-59): every
non-`None` incoming value overwrites the stored field, then
`last_seen` is refreshed. -/
def applyUpdate (l : ListingRow) (d : ListingData) (now : ℤ) : ListingRow :=
  { l with
    source := d.source
    listing_id := d.listing_id
    url := d.url
    make := d.make
    model := updOpt d.model l.model
    year := updOpt d.year l.year
    mileage := updOpt d.mileage l.mileage
    price_usd := d.price_usd
    price_original := updOpt d.price_original l.price_original
    currency_original := updOpt d.currency_original l.currency_original
    title := updOpt d.title l.title
    description := updOpt d.description l.description
    location := updOpt d.location l.location
    image_url := updOpt d.image_url l.image_url
    is_urgent := d.is_urgent
    customs_cleared := updOpt d.customs_cleared l.customs_cleared
    last_seen := now }

/-- Replace the first element satisfying `p` (SQLAlchemy mutates the
single object returned by `scalar_one_or_none`; the unique index on
`(source, listing_id)` guarantees at most one match). -/
def replaceFirst {α : Type} (p : α → Bool) (new : α) : List α → List α
  | [] => []
  | x :: xs => if p x then new :: xs else x :: replaceFirst p new xs

/-- The fresh row built by `Listing(**listing_data)` in the insert
branch of `upsert_listing`. -/
def newRow (d : ListingData) (i : ℕ) (now : ℤ) : ListingRow :=
  { id := i
    source := d.source
    listing_id := d.listing_id
    url := d.url
    make := d.make
    model := d.model
    year := d.year
    mileage := d.mileage
    price_usd := d.price_usd
    price_original := d.price_original
    currency_original := d.currency_original
    title := d.title
    description := d.description
    location := d.location
    image_url := d.image_url
    is_urgent := d.is_urgent
    customs_cleared := d.customs_cleared
    first_seen := now
    last_seen := now }

/-- Embeds `Repository.upsert_listing` (repository.py lines 36-90).
Returns the new database state together with the Python return value
`(listing, is_new, previous_price)`. -/
def upsertListing (db : DB) (d : ListingData) (now : ℤ) :
    DB × ListingRow × Bool × Option ℚ :=
  match db.listings.find? (keyMatch d) with
  | some existing =>
    let updated := applyUpdate existing d now
    let history1 :=
      if existing.price_usd ≠ d.price_usd then
        db.history ++ [⟨existing.id, d.price_usd, d.price_original,
                        d.currency_original, now⟩]
      else db.history
    ({ db with
        listings := replaceFirst (keyMatch d) updated db.listings
        history := history1 },
     updated, false, some existing.price_usd)
  | none =>
    let row := newRow d db.nextId now
    ({ db with
        listings := db.listings ++ [row]
        history := db.history ++ [⟨row.id, row.price_usd, row.price_original,
                                   row.currency_original, now⟩]
        nextId := db.nextId + 1 },
     row, true, none)

/-- Embeds `Repository.get_price_history`: rows of `price_history` for one
listing, ordered by `recorded_at` descending (most recent first); the
table list is in append order, so this is its filtered reverse. -/
def getPriceHistory (db : DB) (lid : ℕ) : List PriceHistoryRow :=
  ((db.history.filter (fun h => h.listing_id == lid))).reverse

/-- Embeds `Repository.get_price_drop` (repository.py lines 196-211) applied
to a most-recent-first price list: `None` with fewer than two entries
or a zero previous price, else the signed percentage change. -/
def priceDropOfHistory : List ℚ → Option ℚ
  | current :: previous :: _ =>
    if previous = 0 then none else some (((current - previous) / previous) * 100)
  | _ => none

/-- Embeds `Repository.get_price_drop` on the database state. -/
def getPriceDrop (db : DB) (lid : ℕ) : Option ℚ :=
  priceDropOfHistory ((getPriceHistory db lid).map (·.price_usd))

/-- Embeds `Repository.was_notification_sent` (repository.py lines 215-231):
is there a `SentNotification` row for this listing with
`sent_at >= utcnow() - timedelta(hours=hours)`? -/
def wasNotificationSent (db : DB) (lid : ℕ) (now : ℤ) (hours : ℤ) : Bool :=
  db.notes.any (fun n => n.listing_id == lid && decide (now - hours * 3600 ≤ n.sent_at))

/-- Embeds `Repository.record_notification`: append-only audit row. -/
def recordNotification (db : DB) (lid : ℕ) (reason : String)
    (messageId : Option ℤ) (now : ℤ) : DB :=
  { db with notes := db.notes ++ [⟨lid, now, reason, messageId⟩] }

/-- Embeds `Repository.get_price_percentile` (repository.py lines 125-157),
applied to the prices returned by the comparable-listings query
(same make via `ILIKE`, model year within ±1): `None` below three
samples, else the entry at index `int(len * percentile / 100)` of the
ascending sort.  The Python `int(float)` truncation equals `ℕ` division
here because `len * percentile / 100` is a multiple of `1/5` for
`percentile = 20`. -/
def getPricePercentile (prices : List ℚ) (percentile : ℕ) : Option ℚ :=
  if prices.length < 3 then none
  else
    let sorted := prices.mergeSort (fun a b => decide (a ≤ b))
    some (sorted.getD (prices.length * percentile / 100) 0)

/-- Result record of `PriceAnalyzer.analyze` (`PriceAnalysis`
dataclass in price_analyzer.py). -/
structure PriceAnalysis where
  listing_id : ℕ
  current_price : ℚ
  market_average : Option ℚ := none
  percentile_20 : Option ℚ := none
  deviation_percent : Option ℚ := none
  is_good_deal : Bool := false
  is_below_market : Bool := false
  confidence : ℚ := 0
  reason : Option String := none
deriving DecidableEq, Repr

/-- The Python `:,.0f` / `:.0f` float formatting is modelled as plain
decimal rendering of the rational; no claim depends on the digits. -/
def fmtNum (q : ℚ) : String := toString q

/-- The f-string of the percentile branch of `PriceAnalyzer.analyze`. -/
def p20ReasonStr (diff p20 : ℚ) : String :=
  "$" ++ fmtNum diff ++ " below P20 ($" ++ fmtNum p20 ++ ")"

/-- The f-string of the below-market branch of `PriceAnalyzer.analyze`. -/
def belowMarketReasonStr (deviation avg : ℚ) : String :=
  fmtNum deviation ++ "% below market avg ($" ++ fmtNum avg ++ ")"

/-- Constant `PriceAnalyzer.GOOD_DEAL_PERCENTILE`. -/
def GOOD_DEAL_PERCENTILE : ℕ := 20

/-- Constant `PriceAnalyzer.SIGNIFICANT_DISCOUNT_PERCENT`. -/
def SIGNIFICANT_DISCOUNT_PERCENT : ℚ := 15

/-- Constant `PriceAnalyzer.MIN_SAMPLES_FOR_CONFIDENCE`. -/
def MIN_SAMPLES_FOR_CONFIDENCE : ℕ := 5

/-- Embeds `PriceAnalyzer.analyze` (price_analyzer.py lines 45-123).  The
repository queries are explicit inputs: `comparablePrices` is the
price list fetched by the query inside `get_price_percentile`, `marketAvg` the
SQL `AVG` from `get_average_price`, `sampleSize` the length of
the result of `get_listings_by_make`.  Truthiness: `if percentile_20 and ...`
skips on `None` and on `0.0`; `if market_avg and market_avg > 0`
collapses to `0 < avg`. -/
def priceAnalyze (listing : ListingRow) (comparablePrices : List ℚ)
    (marketAvg : Option ℚ) (sampleSize : ℕ) : PriceAnalysis :=
  let percentile20 := getPricePercentile comparablePrices GOOD_DEAL_PERCENTILE
  let confidence : ℚ :=
    if sampleSize ≥ MIN_SAMPLES_FOR_CONFIDENCE * 2 then 1
    else if sampleSize ≥ MIN_SAMPLES_FOR_CONFIDENCE then 7/10
    else if sampleSize ≥ 3 then 4/10
    else 2/10
  -- percentile branch
  let hit1 : Bool :=
    match percentile20 with
    | some v => decide (v ≠ 0 ∧ listing.price_usd < v)
    | none => false
  let reasons1 : List String :=
    match percentile20 with
    | some v =>
      if v ≠ 0 ∧ listing.price_usd < v then
        [p20ReasonStr (v - listing.price_usd) v]
      else []
    | none => []
  -- market-average branch
  let deviation : Option ℚ :=
    match marketAvg with
    | some a => if 0 < a then some (((a - listing.price_usd) / a) * 100) else none
    | none => none
  let hit2 : Bool :=
    match deviation with
    | some dev => decide (dev > SIGNIFICANT_DISCOUNT_PERCENT)
    | none => false
  let reasons2 : List String :=
    match marketAvg, deviation with
    | some a, some dev =>
      if dev > SIGNIFICANT_DISCOUNT_PERCENT then [belowMarketReasonStr dev a] else []
    | _, _ => []
  let reasons := reasons1 ++ reasons2
  { listing_id := listing.id
    current_price := listing.price_usd
    market_average := marketAvg
    percentile_20 := percentile20
    deviation_percent := deviation
    is_good_deal := hit1 || hit2
    is_below_market := hit2
    confidence := confidence
    reason :=
      if reasons.isEmpty then some "Price within normal market range"
      else some (String.intercalate "; " reasons) }

/-- Result record of `UrgencyDetector.analyze` (`UrgencyAnalysis`
dataclass in urgency_detector.py). -/
structure UrgencyAnalysis where
  listing_id : ℕ
  is_urgent : Bool := false
  has_urgent_keywords : Bool := false
  has_price_drop : Bool := false
  price_drop_percent : Option ℚ := none
  detected_keywords : List String := []
  reason : Option String := none
  urgency_score : ℚ := 0
deriving DecidableEq, Repr

/-- Constant `UrgencyDetector.SIGNIFICANT_DROP_PERCENT`. -/
def SIGNIFICANT_DROP_PERCENT : ℚ := 5

/-- Constant `UrgencyDetector.MAJOR_DROP_PERCENT`. -/
def MAJOR_DROP_PERCENT : ℚ := 10

/-- Embeds `UrgencyDetector.analyze` (urgency_detector.py lines 79-144).
`detectedKeywords` is the output of the regex keyword scan
`_detect_keywords(title + " " + description)` — the `re` engine is
external, so its result enters as a parameter (an empty or whitespace
text yields `[]`, exactly as the `if text_to_check:` guard does). -/
def urgencyAnalyze (listing : ListingRow) (db : DB)
    (detectedKeywords : List String) (checkPriceHistory : Bool) : UrgencyAnalysis :=
  -- keyword branch: `+0.5` and the detected list when the scan hit
  let hasKw1 : Bool := !detectedKeywords.isEmpty
  let kws : List String := if detectedKeywords.isEmpty then [] else detectedKeywords
  let score1 : ℚ := if detectedKeywords.isEmpty then 0 else 1/2
  -- pre-set urgency flag: `+0.3`
  let hasKw2 : Bool := hasKw1 || listing.is_urgent
  let score2 : ℚ := if listing.is_urgent then score1 + 3/10 else score1
  -- price-history branch
  let drop := if checkPriceHistory then getPriceDrop db listing.id else none
  let dropHit : Bool :=
    match drop with
    | some d => decide (d < -SIGNIFICANT_DROP_PERCENT)
    | none => false
  let dropPct : Option ℚ :=
    match drop with
    | some d => if d < -SIGNIFICANT_DROP_PERCENT then some |d| else none
    | none => none
  let score3 : ℚ :=
    match drop with
    | some d =>
      if d < -SIGNIFICANT_DROP_PERCENT then
        if d < -MAJOR_DROP_PERCENT then score2 + 4/10 else score2 + 2/10
      else score2
    | none => score2
  -- final verdict and reason string
  let reasonsKw : List String :=
    if hasKw2 then
      if !kws.isEmpty then ["Keywords: " ++ String.intercalate ", " (kws.take 3)]
      else ["Marked as urgent"]
    else []
  let reasonsDrop : List String :=
    match dropPct with
    | some p => if dropHit then ["Price dropped " ++ fmtNum p ++ "%"] else []
    | none => []
  let reasons := reasonsKw ++ reasonsDrop
  { listing_id := listing.id
    is_urgent := decide (score3 ≥ 3/10)
    has_urgent_keywords := hasKw2
    has_price_drop := dropHit
    price_drop_percent := dropPct
    detected_keywords := kws
    reason := if reasons.isEmpty then none else some (String.intercalate "; " reasons)
    urgency_score := score3 }

/-- Record `NotificationData` (telegram_bot.py) as queued by
`AutoDealBot.scrape_and_notify`. -/
structure PendingNotification where
  listing : ListingRow
  price_analysis : PriceAnalysis
  urgency_analysis : UrgencyAnalysis
  is_new : Bool
  previous_price : Option ℚ
deriving DecidableEq, Repr

/-- The reason classification of the `if is_new:` gating branch
(main.py lines 199-207): `good_price` beats `urgent` beats
`new_listing`. -/
def classifyNewReason (goodDeal urgentFlag : Bool) : String :=
  if goodDeal then "good_price"
  else if urgentFlag then "urgent"
  else "new_listing"

/-- Python truthiness of an `Optional[float]`. -/
def truthyQ : Option ℚ → Bool
  | some v => decide (v ≠ 0)
  | none => false

/-- The reason re-derivation of the dispatch loop (main.py lines
235-241): a chain of independent `if`s starting from `new_listing`,
so a later hit overwrites an earlier one. -/
def recordedReason (n : PendingNotification) : String :=
  let r1 := if n.price_analysis.is_good_deal then "good_price" else "new_listing"
  let r2 := if n.urgency_analysis.is_urgent then "urgent" else r1
  if truthyQ n.previous_price then "price_drop" else r2

/-- One iteration of the dispatch loop (main.py lines 229-255): the
Telegram send is external, its returned message id enters as
`messageId` (`none` models a falsy/failed send, which records
nothing). -/
def dispatchOne (db : DB) (n : PendingNotification) (messageId : Option ℤ)
    (now : ℤ) : DB :=
  match messageId with
  | some mid =>
    if mid ≠ 0 then recordNotification db n.listing.id (recordedReason n) (some mid) now
    else db
  | none => db

/-- Observation of one iteration of the per-listing loop of
`AutoDealBot.scrape_and_notify` (main.py lines 177-226).
`ranPriceAnalyzer` / `ranUrgencyDetector` record whether control
reached the corresponding `analyze` call; `pending` is the
`NotificationData` appended to `notifications_to_send`, if any. -/
structure ProcResult where
  db : DB
  ranPriceAnalyzer : Bool
  ranUrgencyDetector : Bool
  pending : Option PendingNotification
deriving DecidableEq, Repr

/-- One iteration of the per-listing loop of
`AutoDealBot.scrape_and_notify` (main.py lines 177-226): upsert,
24-hour dedup short-circuit, the two analyzers, then the notify
gating.  The analyzer inputs that come from outside the modelled
state (comparable prices, SQL average, sample size, regex keyword
hits) are explicit parameters. -/
def processListing (db : DB) (d : ListingData) (now : ℤ)
    (comparablePrices : List ℚ) (marketAvg : Option ℚ) (sampleSize : ℕ)
    (detectedKeywords : List String) : ProcResult :=
  let res := upsertListing db d now
  let db1 := res.1
  let row := res.2.1
  let isNew := res.2.2.1
  let prev := res.2.2.2
  if wasNotificationSent db1 row.id now 24 then
    ⟨db1, false, false, none⟩
  else
    let pa := priceAnalyze row comparablePrices marketAvg sampleSize
    let ua := urgencyAnalyze row db1 detectedKeywords true
    let shouldNotify : Bool :=
      if isNew then true
      else
        match prev with
        | some pp =>
          truthyQ (some pp) && decide (((pp - row.price_usd) / pp) * 100 ≥ 5)
        | none => false
    if shouldNotify then ⟨db1, true, true, some ⟨row, pa, ua, isNew, prev⟩⟩
    else ⟨db1, true, true, none⟩

/-- Dataclass `Proxy` (proxy_manager.py lines 13-34). -/
structure Proxy where
  host : String
  port : ℕ
  protocol : String := "http"
  country : Option String := none
  anonymity : Option String := none
  last_checked : Option ℤ := none
  success_count : ℕ := 0
  fail_count : ℕ := 0
deriving DecidableEq, Repr, Inhabited

/-- Property `Proxy.url`. -/
def Proxy.url (p : Proxy) : String :=
  p.protocol ++ "://" ++ p.host ++ ":" ++ toString p.port

/-- Property `Proxy.success_rate`: `0.5` when untested, else
`success_count / (success_count + fail_count)`. -/
def Proxy.success_rate (p : Proxy) : ℚ :=
  if p.success_count + p.fail_count = 0 then 1/2
  else (p.success_count : ℚ) / ((p.success_count : ℚ) + (p.fail_count : ℚ))

/-- State of `ProxyManager` (proxy_manager.py lines 55-68): the pool,
the refresh timestamp and the two configuration knobs.
`refresh_interval` is in seconds (`timedelta(minutes=m)` = `m * 60`). -/
structure PMState where
  min_pool_size : ℕ
  refresh_interval : ℤ
  proxies : List Proxy
  last_refresh : Option ℤ
deriving DecidableEq, Repr

/-- Embeds `ProxyManager._should_refresh` (proxy_manager.py lines 226-237):
never refreshed, stale (elapsed strictly greater than the interval),
or under-sized. -/
def shouldRefresh (st : PMState) (now : ℤ) : Bool :=
  match st.last_refresh with
  | none => true
  | some t =>
    decide (st.refresh_interval < now - t) || decide (st.proxies.length < st.min_pool_size)

/-- The state change of `ProxyManager.refresh_proxies` (lines
103-105): the pool is replaced by the freshly fetched-and-validated
list and the timestamp is set.  Fetching and validation are network
effects; their result enters as `validated`. -/
def applyRefresh (st : PMState) (validated : List Proxy) (now : ℤ) : PMState :=
  { st with proxies := validated, last_refresh := some now }

/-- Models `sorted(self._proxies, key=lambda p: p.success_rate, reverse=True)`:
a stable descending sort by success rate. -/
def sortByRate (ps : List Proxy) : List Proxy :=
  ps.mergeSort (fun a b => decide (b.success_rate ≤ a.success_rate))

/-- Models `sorted_proxies[:max(1, len(sorted_proxies) // 2)]`. -/
def topHalf (ps : List Proxy) : List Proxy :=
  (sortByRate ps).take (max 1 (ps.length / 2))

/-- The selection step of `ProxyManager.get_proxy` (lines 210-224):
`None` on an empty pool, else the url of the entry of the ranked top
half picked by `random.choice` — the draw is modelled by the index `k`
reduced modulo the candidate count, so quantifying over `k` ranges
over exactly the choices the uniform draw can make. -/
def selectProxy (pool : List Proxy) (k : ℕ) : Option String :=
  match pool with
  | [] => none
  | _ :: _ =>
    let th := topHalf pool
    some ((th.getD (k % th.length) default).url)

/-- Embeds `ProxyManager.get_proxy` (proxy_manager.py lines 204-224):
refresh first when `_should_refresh` says so, then select.
`fetchedValidated` is the pool a triggered refresh would install. -/
def getProxy (st : PMState) (now : ℤ) (fetchedValidated : List Proxy) (k : ℕ) :
    Option String × PMState :=
  let st1 := if shouldRefresh st now then applyRefresh st fetchedValidated now else st
  (selectProxy st1.proxies k, st1)

/-- Models the `fail_count` increment of `mark_proxy_failed`. -/
def bumpFail (p : Proxy) : Proxy := { p with fail_count := p.fail_count + 1 }

/-- Embeds `ProxyManager.mark_proxy_failed` (proxy_manager.py lines 239-248)
acting on the pool list: the first url match gets its failure counted
and is evicted on the spot when its success rate has dropped below
`0.2`; the `break` leaves the rest untouched. -/
def markProxyFailed (ps : List Proxy) (url : String) : List Proxy :=
  match ps with
  | [] => []
  | p :: rest =>
    if p.url = url then
      let p2 := bumpFail p
      if p2.success_rate < 1/5 then rest else p2 :: rest
    else p :: markProxyFailed rest url

/-- Embeds `ProxyManager.mark_proxy_success` (lines 250-255). -/
def markProxySuccess (ps : List Proxy) (url : String) : List Proxy :=
  match ps with
  | [] => []
  | p :: rest =>
    if p.url = url then { p with success_count := p.success_count + 1 } :: rest
    else p :: markProxySuccess rest url

/-! ## Helper lemmas -/

lemma updOpt_eq_or {α : Type} (a b : Option α) : updOpt a b = a.or b := by
  cases a <;> rfl

lemma length_replaceFirst {α : Type} (p : α → Bool) (n : α) (l : List α) :
    (replaceFirst p n l).length = l.length := by
  induction l with
  | nil => rfl
  | cons x xs ih => simp only [replaceFirst]; split <;> simp [ih]

lemma replaceFirst_append_left_none {α : Type} (p : α → Bool) (n : α)
    (l1 l2 : List α) (h : ∀ x ∈ l1, p x = false) :
    replaceFirst p n (l1 ++ l2) = l1 ++ replaceFirst p n l2 := by
  induction l1 with
  | nil => rfl
  | cons x xs ih =>
    have hx : p x = false := h x (by simp)
    simp only [List.cons_append, replaceFirst, hx]
    simp only [Bool.false_eq_true, if_false, List.cons.injEq, true_and]
    exact ih fun y hy => h y (by simp [hy])

lemma keyMatch_newRow (d : ListingData) (i : ℕ) (now : ℤ) :
    keyMatch d (newRow d i now) = true := by
  simp [keyMatch, newRow]

lemma keyMatch_applyUpdate (d : ListingData) (l : ListingRow) (now : ℤ) :
    keyMatch d (applyUpdate l d now) = true := by
  simp [keyMatch, applyUpdate]

lemma keyMatch_congr (d1 d2 : ListingData) (hs : d2.source = d1.source)
    (hl : d2.listing_id = d1.listing_id) : keyMatch d2 = keyMatch d1 := by
  funext l
  simp [keyMatch, hs, hl]

/-! ## C1: upsert keeps the key unique and appends price history
exactly on change -/

/-- C1: starting from a database with no row for the key of `d1`, a
first `upsert_listing` inserts (`is_new = true`, no previous price),
appends exactly one `PriceHistory` row recording the initial price,
and leaves exactly one listing with that key; a second upsert whose
data carries the same `(source, listing_id)` key hits the update
branch (`is_new = false`), creates no duplicate (the listing count and
the per-key count are unchanged), and appends a `PriceHistory` row iff
its `price_usd` differs from the stored one — no row on equal price,
exactly one on a changed price. -/
theorem upsert_pair_key_unique_price_history
    (db : DB) (d1 d2 : ListingData) (t1 t2 : ℤ)
    (hks : d2.source = d1.source) (hkl : d2.listing_id = d1.listing_id)
    (habsent : ∀ l ∈ db.listings, keyMatch d1 l = false) :
    let r1 := upsertListing db d1 t1
    let db1 := r1.1
    let r2 := upsertListing db1 d2 t2
    let db2 := r2.1
    (r1.2.2.1 = true ∧ r1.2.2.2 = none) ∧
    db1.history.length = db.history.length + 1 ∧
    db1.history.getLast? = some ⟨r1.2.1.id, d1.price_usd, d1.price_original,
                                 d1.currency_original, t1⟩ ∧
    (db1.listings.filter (keyMatch d1)).length = 1 ∧
    (r2.2.2.1 = false ∧ r2.2.2.2 = some d1.price_usd) ∧
    db2.listings.length = db1.listings.length ∧
    (db2.listings.filter (keyMatch d1)).length = 1 ∧
    db2.history.length =
      db1.history.length + (if d2.price_usd = d1.price_usd then 0 else 1) := by
  have hkm := keyMatch_congr d1 d2 hks hkl
  have hfind1 : db.listings.find? (keyMatch d1) = none :=
    List.find?_eq_none.mpr (fun x hx => by simp [habsent x hx])
  have hfilter0 : db.listings.filter (keyMatch d1) = [] :=
    List.filter_eq_nil_iff.mpr (fun x hx => by simp [habsent x hx])
  intro r1 db1 r2 db2
  have hr1 : r1 = upsertListing db d1 t1 := rfl
  rw [upsertListing, hfind1] at hr1
  set row := newRow d1 db.nextId t1 with hrow
  have hdb1 : db1 = { db with
      listings := db.listings ++ [row]
      history := db.history ++ [⟨row.id, row.price_usd, row.price_original,
                                 row.currency_original, t1⟩]
      nextId := db.nextId + 1 } := by rw [show db1 = r1.1 from rfl, hr1]
  have hnew1 : r1.2.2.1 = true := by rw [hr1]
  have hprev1 : r1.2.2.2 = none := by rw [hr1]
  have hrowr1 : r1.2.1 = row := by rw [hr1]
  have hfind2 : db1.listings.find? (keyMatch d2) = some row := by
    rw [hkm, hdb1]
    simp only [List.find?_append, hfind1, Option.none_orElse]
    rw [hrow]
    simp [List.find?, keyMatch_newRow]
  have hr2 : r2 = upsertListing db1 d2 t2 := rfl
  rw [upsertListing, hfind2] at hr2
  have hrowprice : row.price_usd = d1.price_usd := rfl
  refine ⟨⟨hnew1, hprev1⟩, ?_, ?_, ?_, ⟨?_, ?_⟩, ?_, ?_, ?_⟩
  · rw [hdb1]; simp
  · rw [hdb1, hrowr1, hrow]; simp [newRow, List.getLast?_concat]
  · rw [hdb1, hrow]
    simp only [List.filter_append, hfilter0, List.nil_append]
    simp [List.filter, keyMatch_newRow]
  · rw [hr2]
  · rw [hr2]; exact congrArg some hrowprice
  · rw [show db2 = r2.1 from rfl, hr2]
    simp [length_replaceFirst]
  · rw [show db2 = r2.1 from rfl, hr2]
    simp only []
    rw [hkm, hdb1]
    simp only []
    rw [replaceFirst_append_left_none _ _ _ _ (fun x hx => habsent x hx)]
    simp only [List.filter_append, hfilter0, List.nil_append]
    have : replaceFirst (keyMatch d1) (applyUpdate row d2 t2) [row] =
        [applyUpdate row d2 t2] := by
      rw [hrow]
      simp [replaceFirst, keyMatch_newRow]
    rw [this]
    have := keyMatch_applyUpdate d2 row t2
    rw [hkm] at this
    simp [List.filter, this]
  · rw [show db2 = r2.1 from rfl, hr2]
    simp only []
    rw [hrowprice]
    rcases eq_or_ne d2.price_usd d1.price_usd with h | h
    · simp [h]
    · simp [h, Ne.symm h]

/-- Sample scraped payload used by the witnesses. -/
def dataA : ListingData :=
  { source := "list.am", listing_id := "100", url := "u1", make := "BMW"
    model := some "X5", year := some 2021, mileage := none, price_usd := 15000
    price_original := none, currency_original := none, title := none
    description := none, location := none, image_url := none
    is_urgent := false, customs_cleared := none }

/-- A re-observation of the same listing at a lower price, with the
model field missing. -/
def dataB : ListingData := { dataA with price_usd := 14000, model := none }

/-- The empty database. -/
def emptyDB : DB := { listings := [], history := [], notes := [], nextId := 0 }

/-- Witness for C1: the hypotheses of
`upsert_pair_key_unique_price_history` hold for two concrete payloads
sharing a key over the empty database, and the conclusion follows by
applying the theorem there. -/
theorem upsert_pair_key_unique_price_history_witness :
    (dataB.source = dataA.source ∧ dataB.listing_id = dataA.listing_id ∧
      ∀ l ∈ emptyDB.listings, keyMatch dataA l = false) ∧
    (let r1 := upsertListing emptyDB dataA 0
     let db1 := r1.1
     let r2 := upsertListing db1 dataB 1
     let db2 := r2.1
     (r1.2.2.1 = true ∧ r1.2.2.2 = none) ∧
     db1.history.length = emptyDB.history.length + 1 ∧
     db1.history.getLast? = some ⟨r1.2.1.id, dataA.price_usd, dataA.price_original,
                                  dataA.currency_original, 0⟩ ∧
     (db1.listings.filter (keyMatch dataA)).length = 1 ∧
     (r2.2.2.1 = false ∧ r2.2.2.2 = some dataA.price_usd) ∧
     db2.listings.length = db1.listings.length ∧
     (db2.listings.filter (keyMatch dataA)).length = 1 ∧
     db2.history.length =
       db1.history.length + (if dataB.price_usd = dataA.price_usd then 0 else 1)) :=
  ⟨⟨rfl, rfl, by simp [emptyDB]⟩,
   upsert_pair_key_unique_price_history emptyDB dataA dataB 0 1 rfl rfl
     (by simp [emptyDB])⟩

/-! ## C9: a re-observation never erases stored data -/

/-- C9: when `upsert_listing` finds an existing row, the stored row is
replaced in place by the updated row and nothing else changes; every
optional field of the updated row is the incoming value when that is
present and the previously stored value when the incoming value is
`None` (`Option.or`), `last_seen` is always refreshed to the current
time, and `id` / `first_seen` are untouched — hence a field that was
`some` can never become `none` through a re-observation. -/
theorem upsert_update_preserves_missing_fields
    (db : DB) (d : ListingData) (now : ℤ) (l : ListingRow)
    (hfind : db.listings.find? (keyMatch d) = some l) :
    let r := upsertListing db d now
    let u := r.2.1
    r.2.2.1 = false ∧
    u = applyUpdate l d now ∧
    r.1.listings = replaceFirst (keyMatch d) u db.listings ∧
    u.last_seen = now ∧ u.first_seen = l.first_seen ∧ u.id = l.id ∧
    u.model = d.model.or l.model ∧
    u.year = d.year.or l.year ∧
    u.mileage = d.mileage.or l.mileage ∧
    u.price_original = d.price_original.or l.price_original ∧
    u.currency_original = d.currency_original.or l.currency_original ∧
    u.title = d.title.or l.title ∧
    u.description = d.description.or l.description ∧
    u.location = d.location.or l.location ∧
    u.image_url = d.image_url.or l.image_url ∧
    u.customs_cleared = d.customs_cleared.or l.customs_cleared ∧
    (l.model.isSome → u.model.isSome) ∧
    (l.year.isSome → u.year.isSome) ∧
    (l.description.isSome → u.description.isSome) ∧
    (l.image_url.isSome → u.image_url.isSome) := by
  intro r u
  have hr : r = upsertListing db d now := rfl
  rw [upsertListing, hfind] at hr
  have hu : u = applyUpdate l d now := by rw [show u = r.2.1 from rfl, hr]
  refine ⟨by rw [hr], hu, by rw [hr, hu], ?_, ?_, ?_, ?_, ?_, ?_, ?_, ?_, ?_, ?_,
          ?_, ?_, ?_, ?_, ?_, ?_, ?_⟩ <;>
    (simp [hu, applyUpdate, updOpt_eq_or, Option.isSome_or]; try tauto)

/-- A database holding exactly the first observation of `dataA`. -/
def dbOne : DB :=
  { listings := [newRow dataA 0 0]
    history := [⟨0, dataA.price_usd, dataA.price_original, dataA.currency_original, 0⟩]
    notes := [], nextId := 1 }

/-- Witness for C9: re-observing `dataA` as `dataB` (whose `model` is
`None`) keeps the stored model, by the frame theorem applied at this
concrete database. -/
theorem upsert_update_preserves_missing_fields_witness :
    (dbOne.listings.find? (keyMatch dataB) = some (newRow dataA 0 0)) ∧
    (let r := upsertListing dbOne dataB 5
     let u := r.2.1
     r.2.2.1 = false ∧
     u = applyUpdate (newRow dataA 0 0) dataB 5 ∧
     r.1.listings = replaceFirst (keyMatch dataB) u dbOne.listings ∧
     u.last_seen = 5 ∧ u.first_seen = (newRow dataA 0 0).first_seen ∧
     u.id = (newRow dataA 0 0).id ∧
     u.model = dataB.model.or (newRow dataA 0 0).model ∧
     u.year = dataB.year.or (newRow dataA 0 0).year ∧
     u.mileage = dataB.mileage.or (newRow dataA 0 0).mileage ∧
     u.price_original = dataB.price_original.or (newRow dataA 0 0).price_original ∧
     u.currency_original = dataB.currency_original.or (newRow dataA 0 0).currency_original ∧
     u.title = dataB.title.or (newRow dataA 0 0).title ∧
     u.description = dataB.description.or (newRow dataA 0 0).description ∧
     u.location = dataB.location.or (newRow dataA 0 0).location ∧
     u.image_url = dataB.image_url.or (newRow dataA 0 0).image_url ∧
     u.customs_cleared = dataB.customs_cleared.or (newRow dataA 0 0).customs_cleared ∧
     ((newRow dataA 0 0).model.isSome → u.model.isSome) ∧
     ((newRow dataA 0 0).year.isSome → u.year.isSome) ∧
     ((newRow dataA 0 0).description.isSome → u.description.isSome) ∧
     ((newRow dataA 0 0).image_url.isSome → u.image_url.isSome)) :=
  ⟨by simp [dbOne, List.find?, keyMatch, newRow, dataA, dataB],
   upsert_update_preserves_missing_fields dbOne dataB 5 (newRow dataA 0 0)
     (by simp [dbOne, List.find?, keyMatch, newRow, dataA, dataB])⟩

/-! ## C3: the 24-hour dedup short-circuits before the analyzers -/

lemma upsert_notes (db : DB) (d : ListingData) (now : ℤ) :
    (upsertListing db d now).1.notes = db.notes := by
  unfold upsertListing
  cases h : db.listings.find? (keyMatch d) <;> simp

/-- C3: when a `SentNotification` row for the upserted listing exists
with `sent_at` inside the 24-hour window, the per-listing iteration of
`scrape_and_notify` stops right after the upsert: neither analyzer
runs and no notification is queued, whatever the upsert did to the
price — and the upsert itself never touches the notifications table. -/
theorem dedup_skips_analyzers_and_notification
    (db : DB) (d : ListingData) (now : ℤ)
    (comps : List ℚ) (avg : Option ℚ) (n : ℕ) (kws : List String)
    (h : ∃ note ∈ db.notes,
      note.listing_id = (upsertListing db d now).2.1.id ∧
      now - 24 * 3600 ≤ note.sent_at) :
    processListing db d now comps avg n kws =
      ⟨(upsertListing db d now).1, false, false, none⟩ ∧
    (upsertListing db d now).1.notes = db.notes := by
  obtain ⟨note, hmem, hid, ht⟩ := h
  have hnotes : (upsertListing db d now).1.notes = db.notes := upsert_notes db d now
  have hsent : wasNotificationSent (upsertListing db d now).1
      (upsertListing db d now).2.1.id now 24 = true := by
    rw [wasNotificationSent, hnotes, List.any_eq_true]
    exact ⟨note, hmem, by simp [hid]; omega⟩
  refine ⟨?_, hnotes⟩
  rw [processListing]
  simp only [hsent, if_true]

/-- The database of `dbOne` plus a notification for listing 0 sent at
time 0. -/
def dbNotified : DB := { dbOne with notes := [⟨0, 0, "new_listing", none⟩] }

/-- Witness for C3: at time 0, a notification sent at time 0 for the
stored listing makes the pipeline skip both analyzers even though the
incoming payload `dataB` changes the price. -/
theorem dedup_skips_analyzers_and_notification_witness :
    (∃ note ∈ dbNotified.notes,
      note.listing_id = (upsertListing dbNotified dataB 0).2.1.id ∧
      (0 : ℤ) - 24 * 3600 ≤ note.sent_at) ∧
    processListing dbNotified dataB 0 [] none 0 [] =
      ⟨(upsertListing dbNotified dataB 0).1, false, false, none⟩ ∧
    (upsertListing dbNotified dataB 0).1.notes = dbNotified.notes :=
  ⟨⟨⟨0, 0, "new_listing", none⟩, by simp [dbNotified],
    by simp [dbNotified, dbOne, upsertListing, List.find?, keyMatch, newRow,
             dataA, dataB, applyUpdate],
    by norm_num⟩,
   dedup_skips_analyzers_and_notification dbNotified dataB 0 [] none 0 []
     ⟨⟨0, 0, "new_listing", none⟩, by simp [dbNotified],
      by simp [dbNotified, dbOne, upsertListing, List.find?, keyMatch, newRow,
               dataA, dataB, applyUpdate],
      by norm_num⟩⟩

/-! ## C10: the price-drop computation guards its division -/

/-- C10: with fewer than two recorded prices, or with a previous price
of zero, `get_price_drop` answers `None`; the price-drop branch of
`UrgencyDetector.analyze` is then skipped outright, so the whole
analysis — in particular the urgency score — is identical to running
with `check_price_history=False`. -/
theorem get_price_drop_guard (db : DB) (lid : ℕ)
    (h : ((getPriceHistory db lid).map (·.price_usd)).length < 2 ∨
      ∃ c p rest, (getPriceHistory db lid).map (·.price_usd) = c :: p :: rest ∧ p = 0) :
    getPriceDrop db lid = none ∧
    ∀ (listing : ListingRow), listing.id = lid → ∀ kws,
      urgencyAnalyze listing db kws true = urgencyAnalyze listing db kws false := by
  have hdrop : getPriceDrop db lid = none := by
    rw [getPriceDrop]
    rcases h with h | ⟨c, p, rest, heq, hp⟩
    · cases hl : (getPriceHistory db lid).map (·.price_usd) with
      | nil => rfl
      | cons a tl =>
        cases tl with
        | nil => rfl
        | cons b tl2 => rw [hl] at h; simp at h; omega
    · rw [heq]
      simp [priceDropOfHistory, hp]
  refine ⟨hdrop, ?_⟩
  intro listing hlid kws
  rw [urgencyAnalyze, urgencyAnalyze]
  simp [hlid, hdrop]

/-- Witness for C10: the empty database has no price history at all,
so the guard fires and the two analyses agree, here for the fresh row
of `dataA`. -/
theorem get_price_drop_guard_witness :
    (((getPriceHistory emptyDB 0).map (·.price_usd)).length < 2) ∧
    getPriceDrop emptyDB 0 = none ∧
    urgencyAnalyze (newRow dataA 0 0) emptyDB [] true =
      urgencyAnalyze (newRow dataA 0 0) emptyDB [] false :=
  ⟨by simp [getPriceHistory, emptyDB],
   (get_price_drop_guard emptyDB 0
     (Or.inl (by simp [getPriceHistory, emptyDB]))).1,
   (get_price_drop_guard emptyDB 0
     (Or.inl (by simp [getPriceHistory, emptyDB]))).2 (newRow dataA 0 0) rfl []⟩

/-! ## C4: the price-drop boundaries of the urgency score are strict -/

/-- A stored row for `dataA` whose price has fallen to 90. -/
def rowDrop : ListingRow := { newRow dataA 0 0 with price_usd := 90 }

/-- A database where listing 0 has price history 100 then 90: the most
recent price is exactly 10% below the previous one. -/
def dbDrop10 : DB :=
  { listings := [rowDrop]
    history := [⟨0, 100, none, none, 1⟩, ⟨0, 90, none, none, 2⟩]
    notes := [], nextId := 1 }

/-- C4 (counterexample): a most recent price exactly 10.0% below the
previous one adds only `0.2` to the urgency score, not the `0.4` the
claim asserts — both comparisons in the code are strict, so the `0.4`
branch needs a drop strictly greater than 10%. -/
theorem urgency_exact_ten_percent_counterexample :
    getPriceDrop dbDrop10 0 = some (-10) ∧
    (urgencyAnalyze rowDrop dbDrop10 [] false).urgency_score = 0 ∧
    (urgencyAnalyze rowDrop dbDrop10 [] true).urgency_score = 1/5 ∧
    (0 + 2/5 : ℚ) ≠ 1/5 := by
  refine ⟨?_, ?_, ?_, by norm_num⟩
  · simp [getPriceDrop, getPriceHistory, priceDropOfHistory, dbDrop10]
    norm_num
  · simp [urgencyAnalyze, rowDrop, newRow, dataA]
  · simp [urgencyAnalyze, rowDrop, newRow, dataA, getPriceDrop, getPriceHistory,
          priceDropOfHistory, dbDrop10, SIGNIFICANT_DROP_PERCENT, MAJOR_DROP_PERCENT]
    norm_num

/-- C4 (amended): for a listing with at least two price-history
entries and a positive previous price, writing `dropPct` for the
percentage fall from the previous to the most recent price, the
price-history branch of `UrgencyDetector.analyze` adds exactly `0.4`
to the urgency score when `dropPct > 10`, exactly `0.2` when
`5 < dropPct ≤ 10`, and nothing when `dropPct ≤ 5` — so an exact
10.0% drop adds `0.2`, and both an exact 5.0% drop and a 4.9% drop
add nothing. -/
theorem urgency_price_drop_delta (listing : ListingRow) (db : DB)
    (kws : List String) (cur prev : ℚ) (rest : List ℚ) (hprev : 0 < prev)
    (hh : (getPriceHistory db listing.id).map (·.price_usd) = cur :: prev :: rest) :
    (urgencyAnalyze listing db kws true).urgency_score =
      (urgencyAnalyze listing db kws false).urgency_score +
        (if 10 < ((prev - cur) / prev) * 100 then 2/5
         else if 5 < ((prev - cur) / prev) * 100 then 1/5
         else 0) := by
  have hprev0 : prev ≠ 0 := ne_of_gt hprev
  have hdrop : getPriceDrop db listing.id = some (((cur - prev) / prev) * 100) := by
    rw [getPriceDrop, hh]
    simp [priceDropOfHistory, hprev0]
  have hneg : ((cur - prev) / prev) * 100 = -(((prev - cur) / prev) * 100) := by ring
  rw [urgencyAnalyze, urgencyAnalyze]
  simp only [if_true, if_false, Bool.false_eq_true, ite_true, ite_false, hdrop]
  rw [hneg]
  simp only [SIGNIFICANT_DROP_PERCENT, MAJOR_DROP_PERCENT, neg_lt_neg_iff]
  split_ifs <;> linarith

/-- Witness for C4 (amended): at the concrete 10% drop database the
branch contributes `0.2` (the `5 < 10 ≤ 10` case). -/
theorem urgency_price_drop_delta_witness :
    ((getPriceHistory dbDrop10 rowDrop.id).map (·.price_usd) = [90, 100]) ∧
    (0 : ℚ) < 100 ∧
    (urgencyAnalyze rowDrop dbDrop10 [] true).urgency_score =
      (urgencyAnalyze rowDrop dbDrop10 [] false).urgency_score +
        (if 10 < ((100 - 90) / 100 : ℚ) * 100 then 2/5
         else if 5 < ((100 - 90) / 100 : ℚ) * 100 then 1/5
         else 0) :=
  ⟨by simp [getPriceHistory, dbDrop10, rowDrop, newRow, dataA],
   by norm_num,
   urgency_price_drop_delta rowDrop dbDrop10 [] 90 100 [] (by norm_num)
     (by simp [getPriceHistory, dbDrop10, rowDrop, newRow, dataA])⟩

/-! ## C2: classification versus recorded reason for new listings -/

/-- A price analysis flagging a good deal. -/
def paGood : PriceAnalysis :=
  { listing_id := 0, current_price := 10, is_good_deal := true }

/-- An urgency analysis flagging urgency. -/
def uaUrgent : UrgencyAnalysis := { listing_id := 0, is_urgent := true }

/-- The pending notification of a brand-new listing flagged both
good-deal and urgent. -/
def bothFlagged : PendingNotification :=
  { listing := newRow dataA 0 0, price_analysis := paGood
    urgency_analysis := uaUrgent, is_new := true, previous_price := none }

/-- C2 (counterexample): for a new listing flagged both good-deal and
urgent, the gating classifies the reason as `good_price`, but the
dispatch loop re-derives the reason with independent `if`s and records
`urgent` — the recorded reason is not the resolved one. -/
theorem recorded_reason_counterexample :
    classifyNewReason bothFlagged.price_analysis.is_good_deal
      bothFlagged.urgency_analysis.is_urgent = "good_price" ∧
    recordedReason bothFlagged = "urgent" ∧
    ("urgent" : String) ≠ "good_price" := by
  refine ⟨rfl, ?_, by decide⟩
  simp [recordedReason, bothFlagged, paGood, uaUrgent, truthyQ]

/-- C2 (amended): for a new listing the gating classifies the reason
as `good_price` over `urgent` over `new_listing`; the record appended
after a successful dispatch instead carries the re-derived reason, in
which urgency overrides good-deal — the two agree exactly when the
listing is not flagged both ways, and a doubly-flagged new listing is
recorded as `urgent`, not `good_price`.  The record always lands in
the `sent_notifications` table with the sink message id. -/
theorem recorded_reason_resolution (pa : PriceAnalysis) (ua : UrgencyAnalysis)
    (row : ListingRow) (db : DB) (mid now : ℤ) (hmid : mid ≠ 0) :
    let n : PendingNotification := ⟨row, pa, ua, true, none⟩
    recordedReason n =
      (if ua.is_urgent then "urgent"
       else if pa.is_good_deal then "good_price" else "new_listing") ∧
    (¬(pa.is_good_deal = true ∧ ua.is_urgent = true) →
      recordedReason n = classifyNewReason pa.is_good_deal ua.is_urgent) ∧
    (pa.is_good_deal = true → ua.is_urgent = true →
      recordedReason n = "urgent" ∧
      classifyNewReason pa.is_good_deal ua.is_urgent = "good_price") ∧
    (dispatchOne db n (some mid) now).notes =
      db.notes ++ [⟨row.id, now, recordedReason n, some mid⟩] := by
  intro n
  have hrec : recordedReason n =
      (if ua.is_urgent then "urgent"
       else if pa.is_good_deal then "good_price" else "new_listing") := by
    simp [recordedReason, n, truthyQ]
  refine ⟨hrec, ?_, ?_, ?_⟩
  · intro hnot
    rw [hrec, classifyNewReason]
    cases hg : pa.is_good_deal <;> cases hu : ua.is_urgent <;>
      simp_all
  · intro hg hu
    rw [hrec, classifyNewReason]
    simp [hg, hu]
  · simp [dispatchOne, hmid, recordNotification]

/-- Witness for C2 (amended): applying the resolution theorem to the
doubly-flagged pending notification with message id 7. -/
theorem recorded_reason_resolution_witness :
    ((7 : ℤ) ≠ 0) ∧
    (let n : PendingNotification := ⟨newRow dataA 0 0, paGood, uaUrgent, true, none⟩
     recordedReason n =
       (if uaUrgent.is_urgent then "urgent"
        else if paGood.is_good_deal then "good_price" else "new_listing") ∧
     (¬(paGood.is_good_deal = true ∧ uaUrgent.is_urgent = true) →
       recordedReason n = classifyNewReason paGood.is_good_deal uaUrgent.is_urgent) ∧
     (paGood.is_good_deal = true → uaUrgent.is_urgent = true →
       recordedReason n = "urgent" ∧
       classifyNewReason paGood.is_good_deal uaUrgent.is_urgent = "good_price") ∧
     (dispatchOne emptyDB n (some 7) 3).notes =
       emptyDB.notes ++ [⟨(newRow dataA 0 0).id, 3, recordedReason n, some 7⟩]) :=
  ⟨by decide,
   recorded_reason_resolution paGood uaUrgent (newRow dataA 0 0) emptyDB 7 3
     (by decide)⟩

/-! ## C5: the good-deal verdict -/

lemma p20_hit_iff (price v : ℚ) (hpos : 0 ≤ price) :
    (v ≠ 0 ∧ price < v) ↔ price < v := by
  constructor
  · exact And.right
  · intro h
    exact ⟨fun h0 => by rw [h0] at h; linarith, h⟩

lemma below_market_iff (price m : ℚ) (hpos : 0 ≤ price) :
    (0 < m ∧ SIGNIFICANT_DISCOUNT_PERCENT < ((m - price) / m) * 100) ↔
      price < (85/100) * m := by
  rw [SIGNIFICANT_DISCOUNT_PERCENT]
  constructor
  · rintro ⟨hm, hdev⟩
    rw [div_mul_eq_mul_div, lt_div_iff₀ hm] at hdev
    linarith
  · intro h
    have hm : 0 < m := by linarith
    refine ⟨hm, ?_⟩
    rw [div_mul_eq_mul_div, lt_div_iff₀ hm]
    linarith

/-- C5: for a listing with a non-negative price, `PriceAnalyzer.analyze`
sets `is_good_deal` exactly when the price is strictly below the
available 20th percentile or strictly more than 15% below the market
mean (equivalently below 85% of it); `is_below_market` is set exactly
in the latter case; the market average is passed through; and when
neither condition holds the reason is the neutral within-normal-range
string. -/
theorem price_analyze_good_deal_iff (listing : ListingRow) (comps : List ℚ)
    (avg : Option ℚ) (n : ℕ) (hpos : 0 ≤ listing.price_usd) :
    ((priceAnalyze listing comps avg n).is_good_deal = true ↔
      (∃ v, (priceAnalyze listing comps avg n).percentile_20 = some v ∧
        listing.price_usd < v) ∨
      (∃ m, avg = some m ∧ listing.price_usd < (85/100) * m)) ∧
    ((priceAnalyze listing comps avg n).is_below_market = true ↔
      ∃ m, avg = some m ∧ listing.price_usd < (85/100) * m) ∧
    (priceAnalyze listing comps avg n).market_average = avg ∧
    (priceAnalyze listing comps avg n).percentile_20 =
      getPricePercentile comps GOOD_DEAL_PERCENTILE ∧
    ((¬∃ v, (priceAnalyze listing comps avg n).percentile_20 = some v ∧
        listing.price_usd < v) →
     (¬∃ m, avg = some m ∧ listing.price_usd < (85/100) * m) →
     (priceAnalyze listing comps avg n).reason =
       some "Price within normal market range") := by
  cases hp : getPricePercentile comps GOOD_DEAL_PERCENTILE with
  | none =>
    cases avg with
    | none =>
      simp [priceAnalyze, hp]
    | some m =>
      have hiff := below_market_iff listing.price_usd m hpos
      by_cases hm : 0 < m
      · by_cases hdev : SIGNIFICANT_DISCOUNT_PERCENT <
            ((m - listing.price_usd) / m) * 100
        · have hbm := hiff.mp ⟨hm, hdev⟩
          simp [priceAnalyze, hp, hm, hdev]
          exact ⟨hbm, fun hle => absurd hbm (not_lt.mpr hle)⟩
        · have hnot : ¬ listing.price_usd < (85/100) * m :=
            fun h => hdev (hiff.mpr h).2
          simp [priceAnalyze, hp, hm, hdev, hnot]
      · have hnot : ¬ listing.price_usd < (85/100) * m :=
          fun h => hm (hiff.mpr h).1
        simp [priceAnalyze, hp, hm, hnot]
  | some v =>
    have hv := p20_hit_iff listing.price_usd v hpos
    cases avg with
    | none =>
      by_cases hlt : listing.price_usd < v
      · simp [priceAnalyze, hp, hlt, hv.mpr hlt]
      · have : ¬ (v ≠ 0 ∧ listing.price_usd < v) := fun h => hlt h.2
        simp [priceAnalyze, hp, hlt, this]
    | some m =>
      have hiff := below_market_iff listing.price_usd m hpos
      by_cases hlt : listing.price_usd < v
      · by_cases hm : 0 < m
        · by_cases hdev : SIGNIFICANT_DISCOUNT_PERCENT <
              ((m - listing.price_usd) / m) * 100
          · simp [priceAnalyze, hp, hlt, hv.mpr hlt, hm, hdev]
            exact hiff.mp ⟨hm, hdev⟩
          · have hnot : ¬ listing.price_usd < (85/100) * m :=
              fun h => hdev (hiff.mpr h).2
            simp [priceAnalyze, hp, hlt, hv.mpr hlt, hm, hdev, hnot]
        · have hnot : ¬ listing.price_usd < (85/100) * m :=
            fun h => hm (hiff.mpr h).1
          simp [priceAnalyze, hp, hlt, hv.mpr hlt, hm, hnot]
      · have hno1 : ¬ (v ≠ 0 ∧ listing.price_usd < v) := fun h => hlt h.2
        by_cases hm : 0 < m
        · by_cases hdev : SIGNIFICANT_DISCOUNT_PERCENT <
              ((m - listing.price_usd) / m) * 100
          · have hbm := hiff.mp ⟨hm, hdev⟩
            simp [priceAnalyze, hp, hlt, hno1, hm, hdev]
            exact ⟨hbm, fun hle => absurd hbm (not_lt.mpr hle)⟩
          · have hnot : ¬ listing.price_usd < (85/100) * m :=
              fun h => hdev (hiff.mpr h).2
            simp [priceAnalyze, hp, hlt, hno1, hm, hdev, hnot]
        · have hnot : ¬ listing.price_usd < (85/100) * m :=
            fun h => hm (hiff.mpr h).1
          simp [priceAnalyze, hp, hlt, hno1, hm, hnot]

/-- Witness for C5: a 15000-dollar listing against a 100000-dollar
market mean is flagged a good deal via the below-market branch, by the
characterization theorem at this concrete input. -/
theorem price_analyze_good_deal_iff_witness :
    (0 : ℚ) ≤ (newRow dataA 0 0).price_usd ∧
    (priceAnalyze (newRow dataA 0 0) [] (some 100000) 0).is_good_deal = true :=
  ⟨by norm_num [newRow, dataA],
   (price_analyze_good_deal_iff (newRow dataA 0 0) [] (some 100000) 0
      (by norm_num [newRow, dataA])).1.mpr
     (Or.inr ⟨100000, rfl, by norm_num [newRow, dataA]⟩)⟩

/-! ## C6: the 20th percentile needs three comparable samples -/

/-- C6: with fewer than three comparable prices the analysis reports
`percentile_20 = none` whatever the listing price is; with three or
more, the reported percentile is the entry at index
`len * 20 / 100` (integer division) of the ascending sort of the
comparable prices — a list that is a permutation of the input and is
sorted, with the index always in range. -/
theorem percentile_requires_three_samples (listing : ListingRow)
    (comps : List ℚ) (avg : Option ℚ) (n : ℕ) :
    (comps.length < 3 → (priceAnalyze listing comps avg n).percentile_20 = none) ∧
    (3 ≤ comps.length →
      (comps.mergeSort (fun a b => decide (a ≤ b))).Perm comps ∧
      (comps.mergeSort (fun a b => decide (a ≤ b))).Sorted (· ≤ ·) ∧
      ∃ h : comps.length * 20 / 100 <
          (comps.mergeSort (fun a b => decide (a ≤ b))).length,
        (priceAnalyze listing comps avg n).percentile_20 =
          some ((comps.mergeSort (fun a b => decide (a ≤ b))).get
            ⟨comps.length * 20 / 100, h⟩)) := by
  have hfield : (priceAnalyze listing comps avg n).percentile_20 =
      getPricePercentile comps GOOD_DEAL_PERCENTILE := by
    simp [priceAnalyze]
  constructor
  · intro hlt
    rw [hfield, getPricePercentile, if_pos hlt]
  · intro hge
    have hlen : (comps.mergeSort (fun a b => decide (a ≤ b))).length =
        comps.length := List.length_mergeSort comps
    have hidx : comps.length * 20 / 100 < comps.length := by
      have h100 : 0 < 100 := by norm_num
      rw [Nat.div_lt_iff_lt_mul h100]
      omega
    have hidx2 : comps.length * 20 / 100 <
        (comps.mergeSort (fun a b => decide (a ≤ b))).length := by
      rw [hlen]; exact hidx
    refine ⟨List.mergeSort_perm comps _, ?_, hidx2, ?_⟩
    · have hs := @List.sorted_mergeSort ℚ (fun a b : ℚ => decide (a ≤ b))
        (fun a b c hab hbc => by
          simp only [decide_eq_true_eq] at *
          exact le_trans hab hbc)
        (fun a b => by
          simp only [Bool.or_eq_true, decide_eq_true_eq]
          exact le_total a b)
        comps
      exact hs.imp (fun h => by simpa using h)
    · rw [hfield, getPricePercentile, if_neg (by omega)]
      simp only [GOOD_DEAL_PERCENTILE]
      congr 1
      rw [List.getD_eq_getElem?_getD, List.getElem?_eq_getElem hidx2]
      simp

unseal List.merge List.mergeSort in
/-- Witness for C6: on the three comparable prices `[3, 1, 2]` the
percentile index is `0` and the reported value is the least price `1`;
on the two prices `[3, 1]` the percentile is `none`. -/
theorem percentile_requires_three_samples_witness :
    (([3, 1] : List ℚ).length < 3 ∧
      (priceAnalyze (newRow dataA 0 0) [3, 1] none 0).percentile_20 = none) ∧
    (3 ≤ ([3, 1, 2] : List ℚ).length ∧
      (priceAnalyze (newRow dataA 0 0) [3, 1, 2] none 0).percentile_20 = some 1) := by
  have h2 := (percentile_requires_three_samples (newRow dataA 0 0) [3, 1, 2] none 0).2
    (by norm_num)
  obtain ⟨-, -, hidx, hval⟩ := h2
  refine ⟨⟨by norm_num,
    (percentile_requires_three_samples (newRow dataA 0 0) [3, 1] none 0).1
      (by norm_num)⟩, by norm_num, ?_⟩
  rw [hval]
  have hgd : (([3, 1, 2] : List ℚ).mergeSort (fun a b => decide (a ≤ b))).get
      ⟨([3, 1, 2] : List ℚ).length * 20 / 100, hidx⟩ =
      (([3, 1, 2] : List ℚ).mergeSort (fun a b => decide (a ≤ b))).getD
        (([3, 1, 2] : List ℚ).length * 20 / 100) 0 := by
    rw [List.get_eq_getElem, List.getD_eq_getElem?_getD, List.getElem?_eq_getElem hidx]
    rfl
  rw [hgd]
  decide

/-! ## C7: proxy selection -/

lemma topHalf_subset (ps : List Proxy) : ∀ x ∈ topHalf ps, x ∈ ps := by
  intro x hx
  have h1 : x ∈ sortByRate ps := List.mem_of_mem_take hx
  rw [sortByRate] at h1
  exact List.mem_mergeSort.mp h1

lemma length_topHalf (ps : List Proxy) (h : ps ≠ []) :
    (topHalf ps).length = max 1 (ps.length / 2) := by
  have h1 : 1 ≤ ps.length := List.length_pos.mpr h
  rw [topHalf, List.length_take, sortByRate, List.length_mergeSort]
  omega

lemma topHalf_ne_nil (ps : List Proxy) (h : ps ≠ []) : topHalf ps ≠ [] := by
  intro hnil
  have := length_topHalf ps h
  rw [hnil] at this
  simp at this
  omega

lemma sortByRate_perm (ps : List Proxy) : (sortByRate ps).Perm ps :=
  List.mergeSort_perm ps _

lemma sortByRate_sorted (ps : List Proxy) :
    (sortByRate ps).Sorted (fun a b => b.success_rate ≤ a.success_rate) := by
  have hs := @List.sorted_mergeSort Proxy
    (fun a b : Proxy => decide (b.success_rate ≤ a.success_rate))
    (fun a b c hab hbc => by
      simp only [decide_eq_true_eq] at *
      exact le_trans hbc hab)
    (fun a b => by
      simp only [Bool.or_eq_true, decide_eq_true_eq]
      exact le_total b.success_rate a.success_rate)
    ps
  exact hs.imp (fun h => by simpa using h)

lemma selectProxy_nil (k : ℕ) : selectProxy [] k = none := rfl

lemma selectProxy_mem (pool : List Proxy) (hne : pool ≠ []) (k : ℕ) :
    ∃ p ∈ topHalf pool, p ∈ pool ∧ selectProxy pool k = some p.url := by
  have hth := topHalf_ne_nil pool hne
  have hlen : 0 < (topHalf pool).length := List.length_pos.mpr hth
  have hk : k % (topHalf pool).length < (topHalf pool).length := Nat.mod_lt _ hlen
  have hmem : (topHalf pool).getD (k % (topHalf pool).length) default ∈ topHalf pool := by
    rw [List.getD_eq_getElem?_getD, List.getElem?_eq_getElem hk]
    exact List.getElem_mem hk
  refine ⟨_, hmem, topHalf_subset pool _ hmem, ?_⟩
  cases pool with
  | nil => exact absurd rfl hne
  | cons a l => simp [selectProxy]

lemma selectProxy_surjective (pool : List Proxy) (q : Proxy)
    (hq : q ∈ topHalf pool) : ∃ k, selectProxy pool k = some q.url := by
  have hne : pool ≠ [] := by
    intro hnil
    rw [hnil] at hq
    simp [topHalf, sortByRate] at hq
  obtain ⟨j, hj⟩ := List.get_of_mem hq
  refine ⟨j.1, ?_⟩
  have hjlt : j.1 % (topHalf pool).length = j.1 := Nat.mod_eq_of_lt j.2
  have hval : (topHalf pool).getD (j.1 % (topHalf pool).length) default = q := by
    rw [hjlt, List.getD_eq_getElem?_getD, List.getElem?_eq_getElem j.2]
    rw [← hj]
    simp [List.get_eq_getElem]
  cases pool with
  | nil => exact absurd rfl hne
  | cons a l =>
    simp only [selectProxy]
    rw [hval]

/-- C7: `get_proxy` first refreshes exactly when the pool was never
refreshed, is stale (elapsed strictly above the refresh interval), or
is below the minimum size, installing the freshly validated pool; it
returns `None` iff the pool is empty after that step; otherwise it
returns the url of an element of the top half (never empty, of length
`max 1 (n / 2)`) of the pool ranked by success rate descending — the
ranking being a permutation of the pool, sorted in descending order —
and every element of that top half is reachable by some draw. -/
theorem get_proxy_refresh_and_top_half (st : PMState) (now : ℤ)
    (fetched : List Proxy) (k : ℕ) :
    (shouldRefresh st now = true ↔
      st.last_refresh = none ∨
      (∃ t, st.last_refresh = some t ∧ st.refresh_interval < now - t) ∨
      st.proxies.length < st.min_pool_size) ∧
    (getProxy st now fetched k).2 =
      (if shouldRefresh st now then applyRefresh st fetched now else st) ∧
    (getProxy st now fetched k).1 =
      selectProxy (if shouldRefresh st now then applyRefresh st fetched now
                   else st).proxies k ∧
    ((if shouldRefresh st now then applyRefresh st fetched now else st).proxies = []
      → (getProxy st now fetched k).1 = none) ∧
    (∀ pool, pool = (if shouldRefresh st now then applyRefresh st fetched now
                     else st).proxies → pool ≠ [] →
         (sortByRate pool).Perm pool ∧
         (sortByRate pool).Sorted (fun a b => b.success_rate ≤ a.success_rate) ∧
         (∃ rest, sortByRate pool = topHalf pool ++ rest) ∧
         (topHalf pool).length = max 1 (pool.length / 2) ∧
         (∃ p ∈ topHalf pool, p ∈ pool ∧ (getProxy st now fetched k).1 = some p.url) ∧
         (∀ q ∈ topHalf pool, ∃ j, (getProxy st now fetched j).1 = some q.url)) := by
  refine ⟨?_, rfl, rfl, ?_, ?_⟩
  · cases h : st.last_refresh with
    | none => simp [shouldRefresh, h]
    | some t => simp [shouldRefresh, h]
  · intro hnil
    show selectProxy _ k = none
    rw [hnil]
    rfl
  · intro pool hpool hne
    refine ⟨sortByRate_perm _, sortByRate_sorted _,
      ⟨(sortByRate pool).drop (max 1 (pool.length / 2)), ?_⟩,
      length_topHalf _ hne, ?_, ?_⟩
    · rw [topHalf]
      exact (List.take_append_drop _ _).symm
    · obtain ⟨p, h1, h2, h3⟩ := selectProxy_mem pool hne k
      exact ⟨p, h1, h2, by rw [show (getProxy st now fetched k).1 =
        selectProxy pool k from by rw [hpool]; rfl]; exact h3⟩
    · intro q hq
      obtain ⟨j, hj⟩ := selectProxy_surjective pool q hq
      exact ⟨j, by rw [show (getProxy st now fetched j).1 =
        selectProxy pool j from by rw [hpool]; rfl]; exact hj⟩

/-- A one-element proxy pool whose element has one success recorded. -/
def proxyA : Proxy :=
  { host := "1.2.3.4", port := 8080, success_count := 1 }

/-- A fresh manager state holding `proxyA`, never refreshed. -/
def pmFresh : PMState :=
  { min_pool_size := 1, refresh_interval := 900, proxies := [],
    last_refresh := none }

/-- Witness for C7: a never-refreshed manager refreshes and installs
the fetched singleton pool, then selects its only proxy. -/
theorem get_proxy_refresh_and_top_half_witness :
    shouldRefresh pmFresh 0 = true ∧
    (getProxy pmFresh 0 [proxyA] 0).2 = applyRefresh pmFresh [proxyA] 0 ∧
    (getProxy pmFresh 0 [proxyA] 0).1 = some proxyA.url := by
  have h := get_proxy_refresh_and_top_half pmFresh 0 [proxyA] 0
  have hsr : shouldRefresh pmFresh 0 = true := by
    exact h.1.mpr (Or.inl rfl)
  refine ⟨hsr, ?_, ?_⟩
  · rw [h.2.1, if_pos hsr]
  · have hne : (if shouldRefresh pmFresh 0 then applyRefresh pmFresh [proxyA] 0
        else pmFresh).proxies ≠ [] := by
      rw [if_pos hsr]
      simp [applyRefresh]
    obtain ⟨p, hpth, hppool, hres⟩ := (h.2.2.2.2 _ rfl hne).2.2.2.2.1
    have hp : p = proxyA := by
      have := hppool
      rw [if_pos hsr] at this
      simpa [applyRefresh, pmFresh] using this
    rw [hres, hp]

/-! ## C8: a failure that sinks the success rate evicts the proxy -/

lemma markProxyFailed_no_url (ps : List Proxy) (p : Proxy)
    (hmem : p ∈ ps) (huniq : ps.Pairwise (fun a b => a.url ≠ b.url))
    (hrate : (bumpFail p).success_rate < 1/5) :
    ∀ q ∈ markProxyFailed ps p.url, q.url ≠ p.url := by
  induction ps with
  | nil => intro q hq; simp [markProxyFailed] at hq
  | cons a rest ih =>
    rw [List.pairwise_cons] at huniq
    obtain ⟨ha, hrest⟩ := huniq
    by_cases hau : a.url = p.url
    · have hap : a = p := by
        rcases List.mem_cons.mp hmem with h | h
        · exact h.symm
        · exact absurd hau (ha p h)
      subst hap
      intro q hq
      simp only [markProxyFailed, if_pos rfl] at hq
      rw [if_pos hrate] at hq
      intro hqu
      exact ha q hq hqu.symm
    · intro q hq
      simp only [markProxyFailed, if_neg hau] at hq
      rcases List.mem_cons.mp hq with h | h
      · subst h; exact hau
      · have hpmem : p ∈ rest := by
          rcases List.mem_cons.mp hmem with h2 | h2
          · rw [h2] at hau; exact absurd rfl hau
          · exact h2
        exact ih hpmem hrest q h

/-- C8: in a pool with pairwise-distinct urls, a `mark_proxy_failed`
call whose counted failure drops the success rate below `0.2` removes
the proxy on the spot — no proxy with that url remains in the pool —
and consequently a following `get_proxy` call that does not trigger a
refresh can never return that url. -/
theorem failed_proxy_evicted (ps : List Proxy) (p : Proxy)
    (hmem : p ∈ ps) (huniq : ps.Pairwise (fun a b => a.url ≠ b.url))
    (hrate : (bumpFail p).success_rate < 1/5) :
    (∀ q ∈ markProxyFailed ps p.url, q.url ≠ p.url) ∧
    (∀ st now fetched k u, st.proxies = markProxyFailed ps p.url →
      shouldRefresh st now = false →
      (getProxy st now fetched k).1 = some u → u ≠ p.url) := by
  have part1 := markProxyFailed_no_url ps p hmem huniq hrate
  refine ⟨part1, ?_⟩
  intro st now fetched k u hst hsr hres
  have hsel : (getProxy st now fetched k).1 = selectProxy st.proxies k := by
    simp [getProxy, hsr]
  rw [hsel, hst] at hres
  cases hc : markProxyFailed ps p.url with
  | nil => rw [hc] at hres; simp [selectProxy] at hres
  | cons a l =>
    rw [hc] at hres
    obtain ⟨q, hqth, hqpool, hqeq⟩ := selectProxy_mem (a :: l) (by simp) k
    rw [hqeq] at hres
    have hu : u = q.url := (Option.some.injEq _ _).mp hres.symm
    intro hup
    have hq2 : q ∈ markProxyFailed ps p.url := hc ▸ hqpool
    exact part1 q hq2 (by rw [← hu, hup])

/-- An untested proxy: one failure takes its success rate to `0`. -/
def proxyB : Proxy := { host := "9.9.9.9", port := 80 }

/-- Witness for C8: failing the only, untested proxy of a singleton
pool drops its rate to `0 < 0.2` and evicts it, and a refresh-free
`get_proxy` on the emptied pool cannot return its url. -/
theorem failed_proxy_evicted_witness :
    proxyB ∈ [proxyB] ∧
    ([proxyB].Pairwise (fun a b => Proxy.url a ≠ Proxy.url b)) ∧
    (bumpFail proxyB).success_rate < 1/5 ∧
    (∀ q ∈ markProxyFailed [proxyB] proxyB.url, q.url ≠ proxyB.url) ∧
    (∀ st now fetched k u, st.proxies = markProxyFailed [proxyB] proxyB.url →
      shouldRefresh st now = false →
      (getProxy st now fetched k).1 = some u → u ≠ proxyB.url) := by
  have hrate : (bumpFail proxyB).success_rate < 1/5 := by
    norm_num [bumpFail, Proxy.success_rate, proxyB]
  have h := failed_proxy_evicted [proxyB] proxyB (by simp) (by simp) hrate
  exact ⟨by simp, by simp, hrate, h.1, h.2⟩

end AutoBot
